import Mathlib

/-!
# Verification of `StarUtils.js` (qualtrics-stars)

A shallow embedding of the star-rating widget logic in `src/StarUtils.js`,
together with proofs about its behaviour.  DOM elements are modelled as
explicit Lean structures; the handful of JavaScript-specific primitives the
script relies on (`parseInt`, number-to-string coercion on assignment to
`input.value`, the `||` / `??` operators, `querySelectorAll` wrapped in
`try`/`catch`) are modelled explicitly below.
-/

namespace StarUtils

/-! ## JavaScript numeric string primitives -/

/-- One decimal digit as a character; meaningful for `d < 10`. -/
def digitChar (d : Nat) : Char := Char.ofNat (48 + d)

/-- Fuelled accumulating decimal rendering of a natural number, most
significant digit first (the digits of `n` are prepended to `acc`; `0`
contributes no digit).  The fuel is structural so the definition reduces in
the kernel; `fuel ≥ n` always suffices. -/
def natToDigitsCore (fuel : Nat) (n : Nat) (acc : List Char) : List Char :=
  match fuel with
  | 0 => acc
  | fuel + 1 =>
      if n = 0 then acc else natToDigitsCore fuel (n / 10) (digitChar (n % 10) :: acc)

/-- Accumulating decimal rendering of a natural number, most significant
digit first. -/
def natToDigitsAux (n : Nat) (acc : List Char) : List Char :=
  natToDigitsCore n n acc

theorem natToDigitsCore_zero (f : Nat) (acc : List Char) :
    natToDigitsCore f 0 acc = acc := by
  cases f <;> rfl

theorem natToDigitsCore_congr (n : Nat) : ∀ f g : Nat, ∀ acc : List Char,
    n ≤ f → n ≤ g → natToDigitsCore f n acc = natToDigitsCore g n acc := by
  induction n using Nat.strong_induction_on with
  | _ n ih =>
    intro f g acc hf hg
    by_cases h0 : n = 0
    · subst h0; rw [natToDigitsCore_zero, natToDigitsCore_zero]
    · have hn : 0 < n := Nat.pos_of_ne_zero h0
      obtain ⟨f, rfl⟩ : ∃ k, f = k + 1 := ⟨f - 1, by omega⟩
      obtain ⟨g, rfl⟩ : ∃ k, g = k + 1 := ⟨g - 1, by omega⟩
      show (if n = 0 then acc else _) = (if n = 0 then acc else _)
      rw [if_neg h0, if_neg h0]
      have hlt : n / 10 < n := Nat.div_lt_self hn (by norm_num)
      exact ih _ hlt f g _ (by omega) (by omega)

/-- The defining recurrence of `natToDigitsAux`, with the fuel hidden. -/
theorem natToDigitsAux_eq (n : Nat) (acc : List Char) :
    natToDigitsAux n acc =
      if n = 0 then acc else natToDigitsAux (n / 10) (digitChar (n % 10) :: acc) := by
  by_cases h0 : n = 0
  · subst h0; rw [if_pos rfl]; exact natToDigitsCore_zero 0 acc
  · rw [if_neg h0]
    have hn : 0 < n := Nat.pos_of_ne_zero h0
    unfold natToDigitsAux
    match n, hn with
    | n + 1, _ =>
      show (if n + 1 = 0 then acc else _) = _
      rw [if_neg h0]
      exact natToDigitsCore_congr ((n + 1) / 10) n ((n + 1) / 10) _
        (by omega) (le_refl _)

/-- Decimal rendering of a natural number (JavaScript's number-to-string
coercion for non-negative integers, as happens on `input.value = v`). -/
def natToString (n : Nat) : String := if n = 0 then "0" else ⟨natToDigitsAux n []⟩

/-- JavaScript's number-to-string coercion for integers
(as happens on `input.value = minValue`). -/
def jsIntToString (i : Int) : String :=
  if i < 0 then "-" ++ natToString i.natAbs else natToString i.toNat

/-- Characters `parseInt` skips as leading whitespace. -/
def isJsSpace (c : Char) : Bool :=
  c = ' ' || c = '\t' || c = '\n' || c = '\r'

/-- Fold a run of decimal digit characters into a natural number. -/
def digitsVal (cs : List Char) : Nat :=
  cs.foldl (fun a c => a * 10 + (c.toNat - 48)) 0

/-- Consume the optional sign at the start of the digit region of a
`parseInt` argument, returning the sign and the remaining characters. -/
def jsParseIntSign (cs : List Char) : Int × List Char :=
  match cs with
  | [] => (1, [])
  | c :: r => if c = '-' then (-1, r) else if c = '+' then (1, r) else (1, c :: r)

/-- Model of JavaScript `parseInt(s, 10)`: skip leading whitespace, read an
optional sign, then the longest prefix of decimal digits; `none` models the
`NaN` result produced when no digit is found.  (Any `<` comparison against
`NaN` is false in JavaScript, which callers of this model encode by treating
`none` separately.) -/
def jsParseInt10 (s : String) : Option Int :=
  let cs := s.data.dropWhile isJsSpace
  let signRest := jsParseIntSign cs
  let ds := signRest.2.takeWhile Char.isDigit
  if ds.isEmpty then none
  else some (signRest.1 * (digitsVal ds : Int))

/-! ### Round-trip lemmas: parsing a rendered integer recovers it -/

theorem natToDigitsAux_append (n : Nat) (acc : List Char) :
    natToDigitsAux n acc = natToDigitsAux n [] ++ acc := by
  induction n using Nat.strong_induction_on generalizing acc with
  | _ n ih =>
    by_cases h0 : n = 0
    · subst h0; simp [natToDigitsAux_eq]
    · have hlt : n / 10 < n := Nat.div_lt_self (Nat.pos_of_ne_zero h0) (by norm_num)
      conv_lhs => rw [natToDigitsAux_eq]
      conv_rhs => rw [natToDigitsAux_eq]
      rw [if_neg h0, if_neg h0, ih (n / 10) hlt (digitChar (n % 10) :: acc),
        ih (n / 10) hlt [digitChar (n % 10)]]
      simp

theorem digitChar_isDigit (d : Nat) (hd : d < 10) : (digitChar d).isDigit = true := by
  interval_cases d <;> decide

theorem digitChar_toNat (d : Nat) (hd : d < 10) : (digitChar d).toNat - 48 = d := by
  interval_cases d <;> decide

theorem natToDigitsAux_all_digits (n : Nat) :
    ∀ c ∈ natToDigitsAux n [], c.isDigit = true := by
  induction n using Nat.strong_induction_on with
  | _ n ih =>
    by_cases h0 : n = 0
    · subst h0; simp [natToDigitsAux_eq]
    · rw [natToDigitsAux_eq, if_neg h0, natToDigitsAux_append]
      intro c hc
      rcases List.mem_append.mp hc with h | h
      · exact ih _ (Nat.div_lt_self (Nat.pos_of_ne_zero h0) (by norm_num)) c h
      · simp only [List.mem_singleton] at h
        subst h
        exact digitChar_isDigit _ (Nat.mod_lt _ (by norm_num))

theorem digitsVal_append (xs ys : List Char) :
    digitsVal (xs ++ ys) =
      ys.foldl (fun a c => a * 10 + (c.toNat - 48)) (digitsVal xs) := by
  simp [digitsVal, List.foldl_append]

theorem digitsVal_natToDigitsAux (n : Nat) : digitsVal (natToDigitsAux n []) = n := by
  induction n using Nat.strong_induction_on with
  | _ n ih =>
    by_cases h0 : n = 0
    · subst h0; simp [natToDigitsAux_eq, digitsVal]
    · rw [natToDigitsAux_eq, if_neg h0, natToDigitsAux_append, digitsVal_append,
        ih _ (Nat.div_lt_self (Nat.pos_of_ne_zero h0) (by norm_num))]
      simp only [List.foldl_cons, List.foldl_nil]
      rw [digitChar_toNat _ (Nat.mod_lt _ (by norm_num))]
      omega

theorem natToDigitsAux_ne_nil (n : Nat) (hn : n ≠ 0) : natToDigitsAux n [] ≠ [] := by
  rw [natToDigitsAux_eq, if_neg hn, natToDigitsAux_append]
  simp

theorem isDigit_not_jsSpace (c : Char) (h : c.isDigit = true) : isJsSpace c = false := by
  by_contra hc
  have hy : isJsSpace c = true := by simpa using hc
  simp only [isJsSpace, Bool.or_eq_true, decide_eq_true_eq] at hy
  rcases hy with ((h1 | h1) | h1) | h1 <;> (subst h1; exact absurd h (by decide))

theorem dropWhile_all_digits (l : List Char) (hd : ∀ c ∈ l, c.isDigit = true) :
    l.dropWhile isJsSpace = l := by
  cases l with
  | nil => rfl
  | cons c rest =>
    rw [List.dropWhile_cons, isDigit_not_jsSpace c (hd c (by simp))]
    simp

theorem takeWhile_all_digits (l : List Char) (hd : ∀ c ∈ l, c.isDigit = true) :
    l.takeWhile Char.isDigit = l := by
  induction l with
  | nil => rfl
  | cons c rest ih =>
    rw [List.takeWhile_cons, hd c (by simp)]
    simp only [ite_true]
    rw [ih (fun x hx => hd x (by simp [hx]))]

theorem jsParseIntSign_digit (c : Char) (rest : List Char) (h : c.isDigit = true) :
    jsParseIntSign (c :: rest) = (1, c :: rest) := by
  have hcm : c ≠ '-' := by rintro rfl; exact absurd h (by decide)
  have hcp : c ≠ '+' := by rintro rfl; exact absurd h (by decide)
  rw [jsParseIntSign, if_neg hcm, if_neg hcp]

/-- Parsing the decimal rendering of a natural number recovers it. -/
theorem jsParseInt10_natToString (n : Nat) : jsParseInt10 (natToString n) = some (n : Int) := by
  by_cases h0 : n = 0
  · subst h0; rfl
  · have hdig := natToDigitsAux_all_digits n
    have hnil := natToDigitsAux_ne_nil n h0
    unfold natToString
    rw [if_neg h0]
    unfold jsParseInt10
    simp only
    rw [dropWhile_all_digits _ hdig]
    cases hl : natToDigitsAux n [] with
    | nil => exact absurd hl hnil
    | cons c rest =>
      have hrest : ∀ x ∈ c :: rest, x.isDigit = true := by rw [← hl]; exact hdig
      rw [jsParseIntSign_digit c rest (hrest c (by simp))]
      simp only
      rw [takeWhile_all_digits _ hrest]
      rw [if_neg (by simp)]
      rw [show digitsVal (c :: rest) = n from hl ▸ digitsVal_natToDigitsAux n]
      simp

/-- Parsing the rendering of any integer recovers it. -/
theorem jsParseInt10_jsIntToString (i : Int) : jsParseInt10 (jsIntToString i) = some i := by
  by_cases hneg : i < 0
  · have h0 : i.natAbs ≠ 0 := by omega
    have hdig := natToDigitsAux_all_digits i.natAbs
    have hnil := natToDigitsAux_ne_nil i.natAbs h0
    unfold jsIntToString
    rw [if_pos hneg]
    unfold natToString
    rw [if_neg h0]
    unfold jsParseInt10
    simp only
    rw [show ("-" ++ String.mk (natToDigitsAux i.natAbs [])).data
        = '-' :: natToDigitsAux i.natAbs [] from rfl]
    rw [List.dropWhile_cons]
    rw [show isJsSpace ('-') = false from rfl]
    simp only [Bool.false_eq_true, if_false]
    rw [show jsParseIntSign ('-' :: natToDigitsAux i.natAbs [])
        = (-1, natToDigitsAux i.natAbs []) from by rw [jsParseIntSign, if_pos rfl]]
    simp only
    rw [takeWhile_all_digits _ hdig]
    rw [if_neg (by simpa using hnil)]
    rw [digitsVal_natToDigitsAux]
    congr 1
    omega
  · unfold jsIntToString
    rw [if_neg hneg, jsParseInt10_natToString]
    congr 1
    omega

theorem natToString_ne_empty (n : Nat) : natToString n ≠ "" := by
  unfold natToString
  by_cases h0 : n = 0
  · rw [if_pos h0]; decide
  · rw [if_neg h0]
    intro h
    exact natToDigitsAux_ne_nil n h0 (congrArg String.data h)

theorem jsIntToString_ne_empty (i : Int) : jsIntToString i ≠ "" := by
  unfold jsIntToString
  by_cases hneg : i < 0
  · rw [if_pos hneg]
    intro h
    have := congrArg String.data h
    rw [show ("-" ++ natToString i.natAbs).data
        = '-' :: (natToString i.natAbs).data from rfl] at this
    exact List.cons_ne_nil _ _ this
  · rw [if_neg hneg]
    exact natToString_ne_empty _

/-! ## Minimum-value enforcement (`enforceMinStar`'s `enforce` closure)

```js
var enforce = function () {
  var v = parseInt(input.value || '0', 10);
  if (v < minValue) input.value = minValue;
};
```

`input.value || '0'` substitutes `'0'` only when the field is the empty
string (the only falsy DOM string); a non-empty string that `parseInt`
cannot parse yields `NaN`, and `NaN < minValue` is false, so the field is
left untouched in that case. -/

/-- The value `parseInt(input.value || '0', 10)` computes inside `enforce`;
`none` models `NaN`. -/
def parsedFieldValue (value : String) : Option Int :=
  jsParseInt10 (if value = "" then "0" else value)

/-- One run of the `enforce` closure on a field holding `value`, with the
configured `minValue`; returns the field's new contents. -/
def enforce (value : String) (minValue : Int) : String :=
  match parsedFieldValue value with
  | none => value
  | some v => if v < minValue then jsIntToString minValue else value

/-! ## DOM model

Only the attributes the script reads or writes are modelled.  Cosmetic
style properties that no logic depends on (`src`, `alt`, `cursor`,
`transition`, flex alignment, …) are omitted. -/

/-- One custom star `<img>`: its 1-based `data-value` attribute, its
`style.opacity` (`'0.35'` dimmed / `'1'` active) and its
`style.backgroundColor`. -/
structure StarImg where
  dataValue : Nat
  opacity : String
  backgroundColor : Option String
deriving DecidableEq

/-- A DOM node inside a `.StarsContainer` subtree: leftover native markup,
the custom `starutils-wrapper` holding the star images, the
`star-flex-wrapper` built by `addLabels`, or a label `<span>`. -/
inductive Node where
  | nativeEl (cls : String)
  | starsWrapper (stars : List StarImg)
  | flexWrap (children : List Node)
  | labelSpan (cls : String) (text : String)

/-- The CSS class marker of a node (`className` / `classList` content). -/
def nodeClass : Node → String
  | .nativeEl c => c
  | .starsWrapper _ => "starutils-wrapper"
  | .flexWrap _ => "star-flex-wrapper"
  | .labelSpan c _ => c

/-- Number of star images in a node forest. -/
def starCount : List Node → Nat
  | [] => 0
  | Node.starsWrapper s :: rest => s.length + starCount rest
  | Node.flexWrap cs :: rest => starCount cs + starCount rest
  | _ :: rest => starCount rest

/-- Number of nodes carrying a given class marker in a node forest
(the count a `querySelectorAll('.cls')` would report). -/
def countClass (cls : String) : List Node → Nat
  | [] => 0
  | n :: rest =>
      (if nodeClass n = cls then 1 else 0) +
        (match n with
          | Node.flexWrap cs => countClass cls cs
          | _ => 0) +
        countClass cls rest

/-- A `.StarsContainer` element: its persisted `data-starutils-built`
attribute, its child nodes, and its `style.background`. -/
structure StarsContainer where
  builtAttr : Bool
  children : List Node
  background : Option String

/-- The options record `_buildCustomStarsForContainer` receives. -/
structure BuildOpts where
  spacing : Int
  starSize : Int
  numStars : Nat
deriving DecidableEq

/-- The closure state of one constructed custom control: the star images
(`stars` array) and the captured `selectedValue` variable. -/
structure CustomControl where
  numStars : Nat
  selectedValue : Nat
  stars : List StarImg
deriving DecidableEq

/-- The star images created by the `for (let i = 1; i <= numStars; i++)`
loop: ascending `data-value`, initial opacity `'0.35'`. -/
def mkStars (numStars : Nat) : List StarImg :=
  (List.range numStars).map fun k => ⟨k + 1, "0.35", none⟩

/-- `_buildCustomStarsForContainer`: if the container already carries
`data-starutils-built === '1'` it returns at once (no control is created);
otherwise it sets the marker, creates the wrapper with `numStars` stars and
appends it, returning the fresh control closure. -/
def buildCustomStarsForContainer (c : StarsContainer) (o : BuildOpts) :
    StarsContainer × Option CustomControl :=
  if c.builtAttr then (c, none)
  else
    let stars := mkStars o.numStars
    ({ c with
        builtAttr := true,
        children := c.children ++ [Node.starsWrapper stars] },
      some { numStars := o.numStars, selectedValue := 0, stars := stars })

/-- `removeNativeStars` acting on one `.StarsContainer`: the per-selector
removals of `.StarTrack` / `.Filled` / `.StarsEventWatcher` / `.handle` are
subsumed by the `c.innerHTML = ''` wipe that immediately follows them, and
`c.style.background = 'none'`. -/
def removeNativeStarsContainer (c : StarsContainer) : StarsContainer :=
  { c with children := [], background := some "none" }

/-- The body of `applySpacing`'s `containers.forEach` on one container:
`c.innerHTML = ''` then `_buildCustomStarsForContainer(c, …)` (the `td`
width adjustments are layout styling with no modelled state). -/
def applySpacingContainerStep (c : StarsContainer) (o : BuildOpts) : StarsContainer :=
  (buildCustomStarsForContainer { c with children := [] } o).1

/-- The deferred work of `applySpacing` on the list of `.StarsContainer`
elements of a question: `removeNativeStars` on each, then the per-container
clear-and-build pass. -/
def applySpacingWork (cs : List StarsContainer) (o : BuildOpts) : List StarsContainer :=
  (cs.map removeNativeStarsContainer).map (fun c => applySpacingContainerStep c o)

/-! ## Interaction events on a constructed control -/

/-- The row's native `.ResultsInput` field: its string `value` and the log
of synthetic events dispatched on it. -/
structure InputState where
  value : String
  events : List String
deriving DecidableEq

/-- The nearest ancestor `<tr>` of the container, holding the native value
field when one exists. -/
structure TrState where
  resultsInput : Option InputState
deriving DecidableEq

/-- A constructed control together with its surrounding row. -/
structure RowState where
  control : CustomControl
  tr : Option TrState
deriving DecidableEq

/-- `updateVisual`'s `stars.forEach((s, idx) => …)` from a starting index:
each star at overall index `idx` gets opacity `'1'` iff `idx < v`. -/
def updateVisualFrom (v idx : Nat) : List StarImg → List StarImg
  | [] => []
  | s :: rest =>
      { s with opacity := if idx < v then "1" else "0.35" } ::
        updateVisualFrom v (idx + 1) rest

/-- The `updateVisual(v)` closure of `_buildCustomStarsForContainer`. -/
def updateVisual (v : Nat) (stars : List StarImg) : List StarImg :=
  updateVisualFrom v 0 stars

/-- A user interaction on the star with 1-based `data-value` `i`. -/
inductive StarEvent where
  | mouseenter (i : Nat)
  | mouseleave (i : Nat)
  | click (i : Nat)

/-- The three listeners wired per star: `mouseenter` previews value `i`,
`mouseleave` re-renders the persisted `selectedValue`, `click` sets
`selectedValue = i`, writes it into the row's `.ResultsInput` (when the
`<tr>` and the field exist), appends synthetic `input` and `change` events,
and re-renders. -/
def handleEvent (st : RowState) : StarEvent → RowState
  | .mouseenter i =>
      { st with control := { st.control with stars := updateVisual i st.control.stars } }
  | .mouseleave _ =>
      { st with control :=
          { st.control with
            stars := updateVisual st.control.selectedValue st.control.stars } }
  | .click i =>
      { control :=
          { st.control with selectedValue := i, stars := updateVisual i st.control.stars },
        tr := st.tr.map fun t =>
          { resultsInput := t.resultsInput.map fun inp =>
              { value := natToString i, events := inp.events ++ ["input", "change"] } } }

/-! ## Colour decoration (`applyColorGradient`) -/

/-- The default palette `options.colors || […]` falls back to. -/
def defaultGradientColors : List String :=
  ["#ff6666", "#ff9a4d", "#ffd166", "#8be28b", "#66c2ff"]

/-- `colors[idx] || colors[colors.length - 1]`: an out-of-range (or empty,
hence falsy) entry falls back to the last entry; `none` models the
`undefined` produced when that too is out of range. -/
def gradientColor (colors : List String) (idx : Nat) : Option String :=
  match colors.get? idx with
  | some c => if c = "" then colors.get? (colors.length - 1) else some c
  | none => colors.get? (colors.length - 1)

/-- `img.style.backgroundColor = color`; assigning the `undefined` produced
by an empty palette is a no-op on a CSS style declaration. -/
def applyColorAssign (colors : List String) (idx : Nat) (img : StarImg) : StarImg :=
  match gradientColor colors idx with
  | some c => { img with backgroundColor := some c }
  | none => img

/-- `imgs.forEach((img, idx) => …)` of `applyColorGradient` from a starting
index. -/
def colorStarsFrom (colors : List String) (idx : Nat) : List StarImg → List StarImg
  | [] => []
  | img :: rest =>
      applyColorAssign colors idx img :: colorStarsFrom colors (idx + 1) rest

/-- The deferred work of `applyColorGradient` on the question's custom star
images. -/
def applyColorGradientWork (colors : List String) (imgs : List StarImg) : List StarImg :=
  colorStarsFrom colors 0 imgs

/-! ## Label annotation (`addLabels`) -/

/-- The deferred work of `addLabels` on a node forest, where `parentIsFlex`
records whether the forest's parent element already carries the
`star-flex-wrapper` class.  Every `.starutils-wrapper` found is wrapped in
a fresh `star-flex-wrapper` flex node holding the left label span, the
wrapper and the right label span — unless its immediate parent is already a
`star-flex-wrapper`, in which case it is skipped. -/
def addLabelsInParent (lt rt : String) (parentIsFlex : Bool) : List Node → List Node
  | [] => []
  | Node.starsWrapper s :: rest =>
      (if parentIsFlex then Node.starsWrapper s
       else
        Node.flexWrap
          [Node.labelSpan "star-label-left" lt, Node.starsWrapper s,
            Node.labelSpan "star-label-right" rt]) ::
        addLabelsInParent lt rt parentIsFlex rest
  | Node.flexWrap cs :: rest =>
      Node.flexWrap (addLabelsInParent lt rt true cs) ::
        addLabelsInParent lt rt parentIsFlex rest
  | n :: rest => n :: addLabelsInParent lt rt parentIsFlex rest

/-! ## Public entry points

Each `StarUtils.*` function first reads its arguments and resolves the
question container, then either returns silently or schedules deferred
work with `setTimeout`.  The synchronous part is modelled here:
`Except.error` marks the places where the JavaScript throws to its caller,
and `.ok none` is the silent no-op taken when the root cannot be
resolved. -/

/-- The only failure the synchronous parts can raise: a `TypeError` from
reading a property of `null`/`undefined`. -/
inductive JsError where
  | typeError
deriving DecidableEq

/-- A question container: its element id and its `.StarsContainer`
descendants. -/
structure QContainer where
  domId : String
  starsContainers : List StarsContainer

/-- A JavaScript value passed as `questionIdOrElem`: a string id, a DOM
element (has `nodeType`), a nullish/falsy value, or some other truthy
non-string non-node value. -/
inductive RootRef where
  | idString (s : String)
  | element (q : QContainer)
  | nullish
  | otherNonNode

/-- The page's `document`, as the partial map `getElementById` provides. -/
structure Document where
  byId : String → Option QContainer

/-- `_getQuestionContainer`: nullish (and the falsy empty string) resolve
to `null`; a string id goes through `getElementById`; an element is
returned as-is; anything else resolves to `null`. -/
def getQuestionContainer (doc : Document) (r : RootRef) : Option QContainer :=
  match r with
  | .nullish => none
  | .idString s => if s = "" then none else doc.byId s
  | .element q => some q
  | .otherNonNode => none

/-- A selector argument: either a well-formed pattern or one that makes
`querySelectorAll` throw. -/
inductive Selector where
  | valid (s : String)
  | malformed

/-- `_qsAll`: the `try`/`catch` around `querySelectorAll` turns a throwing
lookup into an empty result. -/
def qsAll (query : String → List StarsContainer) (sel : Selector) :
    List StarsContainer :=
  match sel with
  | .valid s => query s
  | .malformed => []

/-- A (possibly partial) options object; `none` fields model absent
(`undefined`) properties. -/
structure JsOptions where
  spacing : Option Int := none
  starSize : Option Int := none
  numStars : Option Nat := none
  colors : Option (List String) := none
  leftText : Option String := none
  rightText : Option String := none

/-- Work scheduled behind `setTimeout` by an entry point, with the
arguments it closed over. -/
inductive Deferred where
  | spacingWork (q : QContainer) (spacing starSize : Int) (numStars : Nat)
  | colorWork (q : QContainer) (colors : List String)
  | labelsWork (q : QContainer) (leftText rightText : String)
  | minWork (q : QContainer) (minValue : Int)

/-- Synchronous part of `applySpacing(questionIdOrElem, options)`: the
field reads `options.spacing ?? 20` etc. run before any null check, so a
nullish `options` raises a `TypeError`; an unresolvable root is a silent
no-op; otherwise the clear-and-build pass is scheduled. -/
def applySpacingCall (doc : Document) (r : RootRef) (options : Option JsOptions) :
    Except JsError (Option Deferred) :=
  match options with
  | none => .error .typeError
  | some o =>
      let spacing := o.spacing.getD 20
      let starSize := o.starSize.getD 30
      let numStars := o.numStars.getD 5
      match getQuestionContainer doc r with
      | none => .ok none
      | some q => .ok (some (.spacingWork q spacing starSize numStars))

/-- Synchronous part of `applyColorGradient`: `options.colors || default`
also runs before the null check (note an explicitly supplied empty array is
truthy and kept). -/
def applyColorGradientCall (doc : Document) (r : RootRef)
    (options : Option JsOptions) : Except JsError (Option Deferred) :=
  match options with
  | none => .error .typeError
  | some o =>
      let colors := o.colors.getD defaultGradientColors
      match getQuestionContainer doc r with
      | none => .ok none
      | some q => .ok (some (.colorWork q colors))

/-- Synchronous part of `addLabels`: `options || {}` guards a nullish
argument, and each label text is kept only when it is a string. -/
def addLabelsCall (doc : Document) (r : RootRef) (options : Option JsOptions) :
    Except JsError (Option Deferred) :=
  let o := options.getD {}
  let leftText := o.leftText.getD "Muy insatisfecho"
  let rightText := o.rightText.getD "Muy satisfecho"
  match getQuestionContainer doc r with
  | none => .ok none
  | some q => .ok (some (.labelsWork q leftText rightText))

/-- Synchronous part of `enforceMinStar(questionIdOrElem, minValue)` with
`minValue = minValue ?? 1`. -/
def enforceMinStarCall (doc : Document) (r : RootRef) (minValue : Option Int) :
    Except JsError (Option Deferred) :=
  let m := minValue.getD 1
  match getQuestionContainer doc r with
  | none => .ok none
  | some q => .ok (some (.minWork q m))

/-- `removeNativeStars`: runs synchronously (no `setTimeout`); an
unresolvable root is a silent no-op, otherwise every `.StarsContainer` is
stripped. -/
def removeNativeStarsCall (doc : Document) (r : RootRef) :
    Except JsError (Option QContainer) :=
  match getQuestionContainer doc r with
  | none => .ok none
  | some q =>
      .ok (some { q with
        starsContainers := q.starsContainers.map removeNativeStarsContainer })

/-- `setStarIcon(url)`: replaces the process-wide default icon only when
`url` is truthy. -/
def setStarIconCall (current : String) (url : Option String) : String :=
  match url with
  | some u => if u = "" then current else u
  | none => current

/-! ## Helper lemmas -/

theorem updateVisualFrom_length (v idx : Nat) (l : List StarImg) :
    (updateVisualFrom v idx l).length = l.length := by
  induction l generalizing idx with
  | nil => rfl
  | cons s rest ih => simp [updateVisualFrom, ih]

theorem updateVisualFrom_get? (v : Nat) (l : List StarImg) : ∀ idx k : Nat,
    (updateVisualFrom v idx l).get? k =
      (l.get? k).map fun s =>
        { s with opacity := if idx + k < v then "1" else "0.35" } := by
  induction l with
  | nil => intro idx k; simp [updateVisualFrom]
  | cons s rest ih =>
    intro idx k
    cases k with
    | zero => simp [updateVisualFrom]
    | succ k =>
      show (updateVisualFrom v (idx + 1) rest).get? k = _
      rw [ih (idx + 1) k, show ((s :: rest).get? (k + 1)) = rest.get? k from rfl,
        show idx + 1 + k = idx + (k + 1) from by omega]

theorem updateVisual_get? (v : Nat) (l : List StarImg) (k : Nat) :
    (updateVisual v l).get? k =
      (l.get? k).map fun s => { s with opacity := if k < v then "1" else "0.35" } := by
  rw [updateVisual, updateVisualFrom_get? v l 0 k]
  simp

theorem updateVisualFrom_comp (v w : Nat) (l : List StarImg) : ∀ idx : Nat,
    updateVisualFrom v idx (updateVisualFrom w idx l) = updateVisualFrom v idx l := by
  induction l with
  | nil => intro idx; rfl
  | cons s rest ih => intro idx; simp [updateVisualFrom, ih (idx + 1)]

theorem updateVisual_comp (v w : Nat) (l : List StarImg) :
    updateVisual v (updateVisual w l) = updateVisual v l :=
  updateVisualFrom_comp v w l 0

theorem updateVisualFrom_zero_dim (l : List StarImg) : ∀ idx : Nat,
    ∀ s ∈ updateVisualFrom 0 idx l, s.opacity = "0.35" := by
  induction l with
  | nil => intro idx s hs; simp [updateVisualFrom] at hs
  | cons a rest ih =>
    intro idx s hs
    rw [updateVisualFrom] at hs
    rcases List.mem_cons.mp hs with h | h
    · subst h; simp
    · exact ih (idx + 1) s h

theorem colorStarsFrom_get? (colors : List String) (l : List StarImg) : ∀ idx k : Nat,
    (colorStarsFrom colors idx l).get? k =
      (l.get? k).map (applyColorAssign colors (idx + k)) := by
  induction l with
  | nil => intro idx k; simp [colorStarsFrom]
  | cons img rest ih =>
    intro idx k
    cases k with
    | zero => simp [colorStarsFrom]
    | succ k =>
      show (colorStarsFrom colors (idx + 1) rest).get? k = _
      rw [ih (idx + 1) k, show ((img :: rest).get? (k + 1)) = rest.get? k from rfl,
        show idx + 1 + k = idx + (k + 1) from by omega]

theorem mkStars_length (n : Nat) : (mkStars n).length = n := by
  simp [mkStars]

theorem mkStars_get? (n k : Nat) (hk : k < n) :
    (mkStars n).get? k = some ⟨k + 1, "0.35", none⟩ := by
  simp [mkStars, List.getElem?_map, List.getElem?_range hk]

/-! ## Example fixtures -/

/-- A three-star control sitting in a row with an empty native field. -/
def exRow : RowState :=
  { control := { numStars := 3, selectedValue := 0, stars := mkStars 3 },
    tr := some { resultsInput := some { value := "", events := [] } } }

/-- A not-yet-built container still holding native markup. -/
def exContainer : StarsContainer :=
  { builtAttr := false, children := [Node.nativeEl "StarTrack"], background := none }

def exOpts : BuildOpts := { spacing := 20, starSize := 30, numStars := 5 }

def exQuestion : QContainer := { domId := "QID1", starsContainers := [exContainer] }

def exDocument : Document :=
  { byId := fun s => if s = "QID1" then some exQuestion else none }

/-! ## Claims -/

/-- C1: after the user clicks the icon with 1-based index `i` of a control
with `count` icons, exactly the icons with index `≤ i` are fully opaque
(`'1'`, the rest `'0.35'`), `selectedValue = i`, the row's `.ResultsInput`
holds `i`, and synthetic `input` and `change` events were dispatched on
it. -/
theorem C1_click_updates_row (st : RowState) (t : TrState) (inp : InputState)
    (count i : Nat) (htr : st.tr = some t) (hinp : t.resultsInput = some inp)
    (hlen : st.control.stars.length = count) (hi1 : 1 ≤ i) (hic : i ≤ count) :
    (∀ k, 1 ≤ k → k ≤ count →
      ((handleEvent st (StarEvent.click i)).control.stars.get? (k - 1)).map
          StarImg.opacity = some (if k ≤ i then "1" else "0.35")) ∧
    (handleEvent st (StarEvent.click i)).control.selectedValue = i ∧
    (handleEvent st (StarEvent.click i)).tr = some
      { resultsInput := some { value := natToString i, events := inp.events ++ ["input", "change"] } } := by
  refine ⟨?_, rfl, ?_⟩
  · intro k hk1 hkc
    show ((updateVisual i st.control.stars).get? (k - 1)).map StarImg.opacity = _
    rw [updateVisual_get?]
    have hklen : k - 1 < st.control.stars.length := by omega
    rw [List.get?_eq_get hklen]
    show some (if k - 1 < i then "1" else "0.35") = some (if k ≤ i then "1" else "0.35")
    by_cases hki : k ≤ i
    · rw [if_pos hki, if_pos (show k - 1 < i by omega)]
    · rw [if_neg hki, if_neg (show ¬k - 1 < i by omega)]
  · show st.tr.map _ = _
    rw [htr]
    simp [hinp]

/-- Witness for C1 at a concrete three-star row, clicking star 2. -/
theorem C1_click_updates_row_witness :
    ((handleEvent exRow (StarEvent.click 2)).control.stars.get? 0).map StarImg.opacity
        = some "1" ∧
    ((handleEvent exRow (StarEvent.click 2)).control.stars.get? 1).map StarImg.opacity
        = some "1" ∧
    ((handleEvent exRow (StarEvent.click 2)).control.stars.get? 2).map StarImg.opacity
        = some "0.35" ∧
    (handleEvent exRow (StarEvent.click 2)).control.selectedValue = 2 ∧
    (handleEvent exRow (StarEvent.click 2)).tr = some
      { resultsInput := some { value := natToString 2, events := [] ++ ["input", "change"] } } := by
  have h := C1_click_updates_row exRow
    { resultsInput := some { value := "", events := [] } }
    { value := "", events := [] } 3 2 rfl rfl rfl (by decide) (by decide)
  refine ⟨?_, ?_, ?_, h.2.1, h.2.2⟩
  · simpa using h.1 1 (by decide) (by decide)
  · simpa using h.1 2 (by decide) (by decide)
  · simpa using h.1 3 (by decide) (by decide)

/-- C2: one run of the `enforce` check on a field whose effective content
parses to `v` rewrites the field to exactly `m` when `v < m`, leaves it
unchanged when `v ≥ m`, and in either case leaves a field whose parsed
value is `≥ m`. -/
theorem C2_enforce_min (value : String) (m v : Int)
    (hparse : parsedFieldValue value = some v) :
    (v < m → enforce value m = jsIntToString m) ∧
    (m ≤ v → enforce value m = value) ∧
    ∃ v2, parsedFieldValue (enforce value m) = some v2 ∧ m ≤ v2 := by
  have henf : enforce value m = if v < m then jsIntToString m else value := by
    rw [enforce, hparse]
  by_cases hvm : v < m
  · rw [henf, if_pos hvm]
    refine ⟨fun _ => rfl, fun h => absurd hvm (by omega), m, ?_, le_refl m⟩
    rw [parsedFieldValue, if_neg (jsIntToString_ne_empty m), jsParseInt10_jsIntToString]
  · rw [henf, if_neg hvm]
    exact ⟨fun h => absurd h hvm, fun _ => rfl, v, hparse, by omega⟩

/-- Witness for C2: a field holding `2` is rewritten to `5` under minimum
`5`, and a field holding `7` is left unchanged. -/
theorem C2_enforce_min_witness :
    parsedFieldValue "2" = some 2 ∧
    enforce "2" 5 = jsIntToString 5 ∧ enforce "7" 5 = "7" :=
  ⟨rfl, (C2_enforce_min "2" 5 2 rfl).1 (by decide),
    (C2_enforce_min "7" 5 7 rfl).2.1 (by decide)⟩

/-- Counterexample to C3: the field content `"abc"` is not a valid integer,
yet the check leaves it in place instead of rewriting it to the positive
minimum `1` — `parseInt('abc', 10)` is `NaN` and `NaN < 1` is false; only
the empty string is replaced by `'0'` by `input.value || '0'`. -/
theorem C3_counterexample :
    enforce "abc" 1 = "abc" ∧ enforce "abc" 1 ≠ jsIntToString 1 :=
  ⟨rfl, by decide⟩

/-- C3 (amended): only the empty field content is treated as zero and hence
rewritten to the configured positive minimum; non-empty content that does
not parse to an integer makes the comparison against the minimum false and
is left unchanged. -/
theorem C3_amended_empty_only (m : Int) (hm : 0 < m) :
    enforce "" m = jsIntToString m ∧
    ∀ s : String, s ≠ "" → jsParseInt10 s = none → enforce s m = s := by
  constructor
  · rw [enforce, show parsedFieldValue "" = some 0 from rfl]
    show (if (0 : Int) < m then jsIntToString m else "") = jsIntToString m
    rw [if_pos hm]
  · intro s hs hparse
    rw [enforce, parsedFieldValue, if_neg hs, hparse]

/-- Witness for the amended C3 at minimum `1` with contents `""` and
`"abc"`. -/
theorem C3_amended_empty_only_witness :
    (0 : Int) < 1 ∧ enforce "" 1 = jsIntToString 1 ∧ enforce "abc" 1 = "abc" :=
  ⟨by decide, (C3_amended_empty_only 1 (by decide)).1,
    (C3_amended_empty_only 1 (by decide)).2 "abc" (by decide) rfl⟩

/-- C4: building on a not-yet-built container with `count ≥ 1` yields a
control with exactly `count` icons in ascending `data-value` order, each
initially dimmed (`'0.35'`), with `selectedValue = 0`, appended to the
container inside one wrapper. -/
theorem C4_fresh_build (c : StarsContainer) (o : BuildOpts)
    (hbuilt : c.builtAttr = false) (hcount : 1 ≤ o.numStars) :
    ∃ ctl, (buildCustomStarsForContainer c o).2 = some ctl ∧
      ctl.selectedValue = 0 ∧
      ctl.stars.length = o.numStars ∧
      (∀ k, k < o.numStars →
        (ctl.stars.get? k).map StarImg.dataValue = some (k + 1) ∧
        (ctl.stars.get? k).map StarImg.opacity = some "0.35") ∧
      (buildCustomStarsForContainer c o).1.children
        = c.children ++ [Node.starsWrapper ctl.stars] := by
  refine ⟨{ numStars := o.numStars, selectedValue := 0, stars := mkStars o.numStars },
    ?_, rfl, mkStars_length o.numStars, ?_, ?_⟩
  · rw [buildCustomStarsForContainer, if_neg (by simp [hbuilt])]
  · intro k hk
    rw [mkStars_get? o.numStars k hk]
    exact ⟨rfl, rfl⟩
  · rw [buildCustomStarsForContainer, if_neg (by simp [hbuilt])]

/-- Witness for C4 on a concrete fresh container with five stars. -/
theorem C4_fresh_build_witness :
    exContainer.builtAttr = false ∧ 1 ≤ exOpts.numStars ∧
    ∃ ctl, (buildCustomStarsForContainer exContainer exOpts).2 = some ctl ∧
      ctl.selectedValue = 0 ∧
      ctl.stars.length = exOpts.numStars ∧
      (∀ k, k < exOpts.numStars →
        (ctl.stars.get? k).map StarImg.dataValue = some (k + 1) ∧
        (ctl.stars.get? k).map StarImg.opacity = some "0.35") ∧
      (buildCustomStarsForContainer exContainer exOpts).1.children
        = exContainer.children ++ [Node.starsWrapper ctl.stars] :=
  ⟨rfl, by decide, C4_fresh_build exContainer exOpts rfl (by decide)⟩

/-- C5: a second construction call on the same container is a no-op — the
first call persisted the `data-starutils-built` marker, so the second
returns the container untouched and creates no icons or wrapper. -/
theorem C5_rebuild_noop (c : StarsContainer) (o o2 : BuildOpts)
    (hbuilt : c.builtAttr = false) :
    (buildCustomStarsForContainer c o).1.builtAttr = true ∧
    buildCustomStarsForContainer (buildCustomStarsForContainer c o).1 o2
      = ((buildCustomStarsForContainer c o).1, none) := by
  have h1 : (buildCustomStarsForContainer c o).1.builtAttr = true := by
    rw [buildCustomStarsForContainer, if_neg (by simp [hbuilt])]
  refine ⟨h1, ?_⟩
  conv_lhs => rw [buildCustomStarsForContainer]
  rw [if_pos h1]

/-- Witness for C5 on a concrete fresh container. -/
theorem C5_rebuild_noop_witness :
    exContainer.builtAttr = false ∧
    (buildCustomStarsForContainer exContainer exOpts).1.builtAttr = true ∧
    buildCustomStarsForContainer (buildCustomStarsForContainer exContainer exOpts).1 exOpts
      = ((buildCustomStarsForContainer exContainer exOpts).1, none) :=
  ⟨rfl, C5_rebuild_noop exContainer exOpts exOpts rfl⟩

/-- C6: after a first `applySpacing` pass builds a row's icons, a second
pass leaves the row with zero icons — the pass clears the container's
contents, and the persisted built-marker then makes the rebuild return
early, so the destroyed icons are never replaced. -/
theorem C6_second_pass_empties (c : StarsContainer) (o o2 : BuildOpts)
    (hbuilt : c.builtAttr = false) :
    starCount (applySpacingContainerStep (removeNativeStarsContainer c) o).children
        = o.numStars ∧
    (applySpacingContainerStep
        (removeNativeStarsContainer
          (applySpacingContainerStep (removeNativeStarsContainer c) o)) o2).children
        = [] := by
  have hstep : applySpacingContainerStep (removeNativeStarsContainer c) o
      = { builtAttr := true,
          children := [Node.starsWrapper (mkStars o.numStars)],
          background := some "none" } := by
    rw [applySpacingContainerStep, buildCustomStarsForContainer,
      if_neg (by simp [removeNativeStarsContainer, hbuilt])]
    simp [removeNativeStarsContainer]
  have h2 : ∀ d : StarsContainer, d.builtAttr = true →
      (applySpacingContainerStep d o2).children = [] := by
    intro d hd
    rw [applySpacingContainerStep, buildCustomStarsForContainer, if_pos (by simp [hd])]
  refine ⟨?_, ?_⟩
  · rw [hstep]
    simp [starCount, mkStars_length]
  · exact h2 _ (by rw [hstep]; rfl)

/-- Witness for C6 on a concrete fresh container. -/
theorem C6_second_pass_empties_witness :
    exContainer.builtAttr = false ∧
    starCount (applySpacingContainerStep (removeNativeStarsContainer exContainer)
      exOpts).children = exOpts.numStars ∧
    (applySpacingContainerStep
        (removeNativeStarsContainer
          (applySpacingContainerStep (removeNativeStarsContainer exContainer) exOpts))
        exOpts).children = [] :=
  ⟨rfl, C6_second_pass_empties exContainer exOpts exOpts rfl⟩

/-- C7: `mouseenter`/`mouseleave` never change `selectedValue`; hovering
star `j` then leaving re-renders the stars from the persisted
`selectedValue`, which is the all-dimmed state when no star was ever
activated (`selectedValue = 0`). -/
theorem C7_hover_pure (st : RowState) (j k : Nat) :
    (handleEvent st (StarEvent.mouseenter j)).control.selectedValue
        = st.control.selectedValue ∧
    (handleEvent st (StarEvent.mouseleave j)).control.selectedValue
        = st.control.selectedValue ∧
    (handleEvent (handleEvent st (StarEvent.mouseenter j))
        (StarEvent.mouseleave k)).control.stars
      = updateVisual st.control.selectedValue st.control.stars ∧
    (st.control.selectedValue = 0 →
      ∀ s ∈ (handleEvent (handleEvent st (StarEvent.mouseenter j))
        (StarEvent.mouseleave k)).control.stars, s.opacity = "0.35") := by
  refine ⟨rfl, rfl, ?_, ?_⟩
  · exact updateVisual_comp _ _ _
  · intro h0 s hs
    rw [show (handleEvent (handleEvent st (StarEvent.mouseenter j))
          (StarEvent.mouseleave k)).control.stars
        = updateVisual st.control.selectedValue (updateVisual j st.control.stars)
        from rfl, h0] at hs
    exact updateVisualFrom_zero_dim _ 0 s hs

/-- Witness for C7 at a concrete never-activated row, hovering star 2. -/
theorem C7_hover_pure_witness :
    (handleEvent exRow (StarEvent.mouseenter 2)).control.selectedValue = 0 ∧
    (handleEvent (handleEvent exRow (StarEvent.mouseenter 2))
        (StarEvent.mouseleave 2)).control.stars
      = updateVisual 0 exRow.control.stars :=
  ⟨(C7_hover_pure exRow 2 2).1, (C7_hover_pure exRow 2 2).2.2.1⟩

/-- Counterexample to C8: `applySpacing` invoked with a perfectly resolvable
root but a nullish `options` argument raises a `TypeError` to its caller,
because `options.spacing` is read before any guard runs. -/
theorem C8_counterexample :
    applySpacingCall exDocument (RootRef.element exQuestion) none
      = Except.error JsError.typeError := rfl

/-- C8 (amended): every entry point returns without raising for every root
once its options argument is a (possibly empty) object — an unresolvable
root degrades to a silent no-op and a throwing selector lookup degrades to
no matches — but `applySpacing` and `applyColorGradient` read their options
before any guard and raise a `TypeError` when the argument is nullish. -/
theorem C8_amended_no_throw (doc : Document) (r : RootRef) (o : JsOptions)
    (m : Option Int) (query : String → List StarsContainer) :
    (∃ x, applySpacingCall doc r (some o) = Except.ok x) ∧
    (∃ x, applyColorGradientCall doc r (some o) = Except.ok x) ∧
    (∀ opts, ∃ x, addLabelsCall doc r opts = Except.ok x) ∧
    (∃ x, enforceMinStarCall doc r m = Except.ok x) ∧
    (∃ x, removeNativeStarsCall doc r = Except.ok x) ∧
    (getQuestionContainer doc r = none →
      applySpacingCall doc r (some o) = Except.ok none ∧
      applyColorGradientCall doc r (some o) = Except.ok none ∧
      addLabelsCall doc r none = Except.ok none ∧
      enforceMinStarCall doc r m = Except.ok none ∧
      removeNativeStarsCall doc r = Except.ok none) ∧
    qsAll query Selector.malformed = [] := by
  cases hq : getQuestionContainer doc r with
  | none =>
    refine ⟨⟨none, ?_⟩, ⟨none, ?_⟩, fun opts => ⟨none, ?_⟩, ⟨none, ?_⟩, ⟨none, ?_⟩,
      fun _ => ⟨?_, ?_, ?_, ?_, ?_⟩, rfl⟩ <;>
        simp [applySpacingCall, applyColorGradientCall, addLabelsCall,
          enforceMinStarCall, removeNativeStarsCall, hq]
  | some q =>
    refine ⟨⟨some (Deferred.spacingWork q (o.spacing.getD 20) (o.starSize.getD 30)
        (o.numStars.getD 5)), ?_⟩,
      ⟨some (Deferred.colorWork q (o.colors.getD defaultGradientColors)), ?_⟩,
      fun opts => ⟨some (Deferred.labelsWork q
        ((opts.getD {}).leftText.getD "Muy insatisfecho")
        ((opts.getD {}).rightText.getD "Muy satisfecho")), ?_⟩,
      ⟨some (Deferred.minWork q (m.getD 1)), ?_⟩,
      ⟨some { q with
        starsContainers := q.starsContainers.map removeNativeStarsContainer }, ?_⟩,
      fun h => by simp [hq] at h, rfl⟩ <;>
        simp [applySpacingCall, applyColorGradientCall, addLabelsCall,
          enforceMinStarCall, removeNativeStarsCall, hq]

/-- Witness for the amended C8 at a concrete document, root, options and a
failing selector, exercising the unresolvable-root no-op branch. -/
theorem C8_amended_no_throw_witness :
    getQuestionContainer exDocument (RootRef.idString "missing") = none ∧
    applySpacingCall exDocument (RootRef.idString "missing") (some {}) = Except.ok none ∧
    applyColorGradientCall exDocument (RootRef.idString "missing") (some {})
      = Except.ok none ∧
    addLabelsCall exDocument (RootRef.idString "missing") none = Except.ok none ∧
    enforceMinStarCall exDocument (RootRef.idString "missing") none = Except.ok none ∧
    removeNativeStarsCall exDocument (RootRef.idString "missing") = Except.ok none ∧
    qsAll (fun _ => [exContainer]) Selector.malformed = [] := by
  have h := C8_amended_no_throw exDocument (RootRef.idString "missing") {} none
    (fun _ => [exContainer])
  have hq : getQuestionContainer exDocument (RootRef.idString "missing") = none := rfl
  obtain ⟨h1, h2, h3, h4, h5⟩ := h.2.2.2.2.2.1 hq
  exact ⟨hq, h1, h2, h3, h4, h5, h.2.2.2.2.2.2⟩

/-! ### Helper lemmas for the colour pass -/

theorem gradientColor_in (colors : List String) (idx : Nat) (c : String)
    (hc : colors.get? idx = some c) (hcne : c ≠ "") :
    gradientColor colors idx = some c := by
  rw [gradientColor, hc]
  show (if c = "" then colors.get? (colors.length - 1) else some c) = some c
  rw [if_neg hcne]

theorem gradientColor_past (colors : List String) (idx : Nat)
    (h : colors.length ≤ idx) :
    gradientColor colors idx = colors.get? (colors.length - 1) := by
  rw [gradientColor, List.get?_eq_none.mpr h]

theorem applyColorAssign_some (colors : List String) (idx : Nat) (img : StarImg)
    (c : String) (h : gradientColor colors idx = some c) :
    applyColorAssign colors idx img = { img with backgroundColor := some c } := by
  rw [applyColorAssign, h]

/-- C9: with a non-empty palette of non-empty colour strings, the colour
pass gives the icon at 0-based index `idx` the colour `colors[idx]` when the
index is within the palette, and the palette's last colour when it is past
the end. -/
theorem C9_color_assignment (colors : List String) (imgs : List StarImg)
    (hne : colors ≠ []) (hcol : ∀ c ∈ colors, c ≠ "") :
    ∀ idx, idx < imgs.length →
      (idx < colors.length →
        ((applyColorGradientWork colors imgs).get? idx).map StarImg.backgroundColor
          = some (colors.get? idx)) ∧
      (colors.length ≤ idx →
        ((applyColorGradientWork colors imgs).get? idx).map StarImg.backgroundColor
          = some (colors.get? (colors.length - 1))) := by
  intro idx hidx
  have hget : (applyColorGradientWork colors imgs).get? idx
      = (imgs.get? idx).map (applyColorAssign colors idx) := by
    rw [applyColorGradientWork, colorStarsFrom_get? colors imgs 0 idx]
    norm_num
  refine ⟨fun hlt => ?_, fun hge => ?_⟩
  · have hc : colors.get? idx = some (colors.get ⟨idx, hlt⟩) := List.get?_eq_get hlt
    have hcne : colors.get ⟨idx, hlt⟩ ≠ "" := hcol _ (List.get?_mem hc)
    rw [hget, List.get?_eq_get hidx]
    rw [show ((some (imgs.get ⟨idx, hidx⟩)).map (applyColorAssign colors idx))
        = some (applyColorAssign colors idx (imgs.get ⟨idx, hidx⟩)) from rfl]
    rw [applyColorAssign_some colors idx _ _ (gradientColor_in colors idx _ hc hcne)]
    rw [hc]
    rfl
  · have hlen : colors.length - 1 < colors.length := by
      cases colors with
      | nil => exact absurd rfl hne
      | cons a rest => simp
    have hc : colors.get? (colors.length - 1)
        = some (colors.get ⟨colors.length - 1, hlen⟩) := List.get?_eq_get hlen
    rw [hget, List.get?_eq_get hidx]
    rw [show ((some (imgs.get ⟨idx, hidx⟩)).map (applyColorAssign colors idx))
        = some (applyColorAssign colors idx (imgs.get ⟨idx, hidx⟩)) from rfl]
    rw [applyColorAssign_some colors idx _ _ (by rw [gradientColor_past colors idx hge, hc])]
    rw [hc]
    rfl

/-- Five dimmed example stars for the colour-pass scenario. -/
def exStars5 : List StarImg := mkStars 5

/-- Witness for C9 at the spec's scenario `colors = ['#a','#b']`, five
icons: icons 0 and 1 get `#a` and `#b`; icons 2, 3, 4 all get `#b`. -/
theorem C9_color_assignment_witness :
    ((applyColorGradientWork ["#a", "#b"] exStars5).get? 0).map StarImg.backgroundColor
      = some (some "#a") ∧
    ((applyColorGradientWork ["#a", "#b"] exStars5).get? 1).map StarImg.backgroundColor
      = some (some "#b") ∧
    ((applyColorGradientWork ["#a", "#b"] exStars5).get? 2).map StarImg.backgroundColor
      = some (some "#b") ∧
    ((applyColorGradientWork ["#a", "#b"] exStars5).get? 3).map StarImg.backgroundColor
      = some (some "#b") ∧
    ((applyColorGradientWork ["#a", "#b"] exStars5).get? 4).map StarImg.backgroundColor
      = some (some "#b") := by
  have h := C9_color_assignment ["#a", "#b"] exStars5 (by decide) (by decide)
  refine ⟨?_, ?_, ?_, ?_, ?_⟩
  · simpa using (h 0 (by decide)).1 (by decide)
  · simpa using (h 1 (by decide)).1 (by decide)
  · simpa using (h 2 (by decide)).2 (by decide)
  · simpa using (h 3 (by decide)).2 (by decide)
  · simpa using (h 4 (by decide)).2 (by decide)

/-- C10: on a freshly built row, the first `addLabels` pass builds exactly
one `star-flex-wrapper` holding one left and one right label span around
the star wrapper, and a second pass is a no-op because the wrapper's
immediate parent now carries the `star-flex-wrapper` class marker. -/
theorem C10_labels_once (stars : List StarImg) (lt rt lt2 rt2 : String) :
    addLabelsInParent lt2 rt2 false
        (addLabelsInParent lt rt false [Node.starsWrapper stars])
      = addLabelsInParent lt rt false [Node.starsWrapper stars] ∧
    countClass "star-label-left"
        (addLabelsInParent lt2 rt2 false
          (addLabelsInParent lt rt false [Node.starsWrapper stars])) = 1 ∧
    countClass "star-label-right"
        (addLabelsInParent lt2 rt2 false
          (addLabelsInParent lt rt false [Node.starsWrapper stars])) = 1 ∧
    countClass "star-flex-wrapper"
        (addLabelsInParent lt2 rt2 false
          (addLabelsInParent lt rt false [Node.starsWrapper stars])) = 1 ∧
    countClass "starutils-wrapper"
        (addLabelsInParent lt2 rt2 false
          (addLabelsInParent lt rt false [Node.starsWrapper stars])) = 1 := by
  have h1 : addLabelsInParent lt rt false [Node.starsWrapper stars]
      = [Node.flexWrap [Node.labelSpan "star-label-left" lt, Node.starsWrapper stars,
          Node.labelSpan "star-label-right" rt]] := by
    simp [addLabelsInParent]
  have h2 : addLabelsInParent lt2 rt2 false
      [Node.flexWrap [Node.labelSpan "star-label-left" lt, Node.starsWrapper stars,
        Node.labelSpan "star-label-right" rt]]
      = [Node.flexWrap [Node.labelSpan "star-label-left" lt, Node.starsWrapper stars,
          Node.labelSpan "star-label-right" rt]] := by
    simp [addLabelsInParent]
  rw [h1, h2]
  refine ⟨rfl, ?_, ?_, ?_, ?_⟩ <;> simp [countClass, nodeClass]

end StarUtils
